import Mathlib

/-!
Verification development for the trust-root distribution client (TUF client)
and the SPIFFE identity provider of this repository.

The repository sources available here are the TUF client's test file
(`tuf_test.go`, package `tuf`) and `pkg/providers/spiffe/spiffe.go`.  The TUF
client implementation itself (`tuf.go`) is not among the sources, so the
definitions describing it are modelled from the specification (each such
definition says so in its doc comment); the test seam `isExpiredTimestamp`
with its swappers `forceExpiration` / `forceExpirationVersion`, the shapes
`sigstoreCustomMetadata` / `UsageKind` / `StatusKind` / `TargetFile`, and the
concrete repository contents used by the tests are embedded from the test
file directly.
-/

namespace Cosign

/-- Target contents are opaque byte payloads; we model them as strings
(the tests only ever compare them for byte equality). -/
abbrev Content := String

/-- The `UsageKind` enumeration from the `tuf` package: which trust role a target serves.
The test file uses `UnknownUsage` (spelled `Unknown` in the spec) and
`Fulcio`; the spec lists `CTLog` and `RekorLog` as further evidenced kinds. -/
inductive UsageKind where
  | Unknown
  | Fulcio
  | CTLog
  | RekorLog
deriving DecidableEq, Repr

/-- The `StatusKind` enumeration from the `tuf` package: a target's lifecycle state.
The test file uses `UnknownStatus`, `Active` and `Expired`. -/
inductive StatusKind where
  | Unknown
  | Active
  | Expired
deriving DecidableEq, Repr

/-- The `customMetadata` record embedded per target
(`{ "sigstore": { "usage": ..., "status": ... } }` on the wire, built by
`newTufCustomRepo` in the test file as
`sigstoreCustomMetadata{Sigstore: customMetadata{Usage: ..., Status: ...}}`). -/
structure customMetadata where
  Usage : UsageKind
  Status : StatusKind
deriving DecidableEq, Repr

/-- One target of a verified metadata bundle: its name, its verified content,
and its decoded custom metadata.  `custom = none` models a target whose
custom-metadata document is absent (or does not decode), which the spec keeps
semantically distinct from an explicit `Unknown` tag. -/
structure TargetMeta where
  name : String
  content : Content
  custom : Option customMetadata
deriving DecidableEq, Repr

/-- A verified metadata bundle's target set, in bundle order. -/
abbrev Bundle := List TargetMeta

/-- The `TargetFile` record from the `tuf` package: what `GetTargetsByMeta` returns per
target — the test file reads `targets[i].Target` and `targets[i].Status`. -/
structure TargetFile where
  Target : Content
  Status : StatusKind
deriving DecidableEq, Repr

/-- The error taxonomy visible in the claims: a target absent from the bundle
(`NotFoundError`, carrying the missing name) and rejection by the external
verification engine (`VerificationError`). -/
inductive TufError where
  | notFound (name : String)
  | verificationError
deriving DecidableEq, Repr

/-- The error message rendered to callers.  The test file asserts that the
not-found message contains `"file not found: unknown.txt"`. -/
def TufError.message : TufError → String
  | .notFound n => "file not found: " ++ n
  | .verificationError => "tuf: verification failed"

/-- Holds when `sub` occurs as a contiguous substring of `s`. -/
def strContains (s sub : String) : Prop :=
  ∃ pre post : List Char, s.data = pre ++ sub.data ++ post

/-- Modelled from the spec: `getTarget(name)` of the TUF client (`tuf.go`,
absent from the sources) returns the verified content of exactly the named
target, and a NotFoundError carrying the name when it is absent from the
bundle. -/
def getTarget (b : Bundle) (name : String) : Except TufError Content :=
  match b.find? (fun t => t.name == name) with
  | some t => .ok t.content
  | none => .error (.notFound name)

/-- Step 1 of the `getTargetsByMeta` algorithm: every target of the bundle
whose decoded custom metadata carries the requested usage, kept regardless of
its status, as `{content, status}`. -/
def matchedTargets (b : Bundle) (usage : UsageKind) : List TargetFile :=
  b.filterMap (fun t =>
    t.custom.bind (fun cm =>
      if cm.Usage = usage then some ⟨t.content, cm.Status⟩ else none))

/-- Step 3 of the `getTargetsByMeta` algorithm: resolve each fallback name in
order by direct `getTarget` lookup, appending `{content, status = Active}` on
success and failing the whole call at the first absent name. -/
def resolveFallbacks (b : Bundle) : List String → Except TufError (List TargetFile)
  | [] => .ok []
  | n :: rest =>
      match getTarget b n with
      | .ok c => (resolveFallbacks b rest).map (fun ts => ⟨c, .Active⟩ :: ts)
      | .error e => .error e

/-- Modelled from the spec: `GetTargetsByMeta(usage, fallbackNames)` of the
TUF client (`tuf.go`, absent from the sources).  Scan all targets and collect
those whose decoded usage equals the requested usage (regardless of status);
if that produced at least one entry return it, ignoring `fallbackNames`;
otherwise resolve each fallback name by direct `getTarget` lookup, appending
`{content, status = Active}` on success and failing the whole call with the
NotFoundError of the first absent name. -/
def GetTargetsByMeta (b : Bundle) (usage : UsageKind) (fallbackNames : List String) :
    Except TufError (List TargetFile) :=
  let m := matchedTargets b usage
  if m.isEmpty then
    resolveFallbacks b fallbackNames
  else
    .ok m

/-- The repository built by `newTufCustomRepo` in the test file: targets
`fooNoCustom.txt` (no custom metadata), `fooActive.txt` (usage Fulcio, status
Active) and `fooExpired.txt` (usage Fulcio, status Expired), each with
content `"foo"`. -/
def customRepoBundle : Bundle :=
  [ ⟨"fooNoCustom.txt", "foo", none⟩,
    ⟨"fooActive.txt", "foo", some ⟨.Fulcio, .Active⟩⟩,
    ⟨"fooExpired.txt", "foo", some ⟨.Fulcio, .Expired⟩⟩ ]

/-- A timestamp-metadata blob, as the expiration checker sees it after the
two JSON decoding layers used in `forceExpirationVersion`: the outer signed
envelope may fail to decode (`garbage`), the inner timestamp record may fail
to decode (`noTimestamp`), or a declared version is obtained. -/
inductive TSBlob where
  | garbage
  | noTimestamp
  | version (v : Int)
deriving DecidableEq, Repr

/-- The mutable state of the `tuf` package.  The test file's
`forceExpiration` / `forceExpirationVersion` swap the package-level variable
`isExpiredTimestamp` (restoring the old value on test cleanup), so the
expiration checker lives here, in process-global state shared by every
client, rather than in any per-client value. -/
structure PkgState where
  isExpiredTimestamp : TSBlob → Bool

/-- The test file's `forceExpiration`: overwrite the package-level
`isExpiredTimestamp` with the constant predicate `fun _ => expire`. -/
def forceExpiration (s : PkgState) (expire : Bool) : PkgState :=
  { s with isExpiredTimestamp := fun _ => expire }

/-- The test file's `forceExpirationVersion`: overwrite the package-level
`isExpiredTimestamp` with the predicate that treats undecodable metadata as
expired and otherwise reports expired exactly when the declared version is
`≤ version`. -/
def forceExpirationVersion (s : PkgState) (version : Int) : PkgState :=
  { s with
    isExpiredTimestamp := fun blob =>
      match blob with
      | .garbage => true
      | .noTimestamp => true
      | .version v => v ≤ version }

/-- An arbitrary starting package state (its checker is irrelevant to every
use below: each theorem installs a checker over it first). -/
def pkgInit : PkgState :=
  { isExpiredTimestamp := fun _ => false }

/-- A local cached bundle: the verified targets plus the cached
timestamp-metadata blob the expiration checker is consulted on. -/
structure CachedBundle where
  targets : Bundle
  timestamp : TSBlob
deriving DecidableEq, Repr

/-- The remote repository as the client sees it through the external
verification engine: the published bundle, its timestamp blob, and the
engine's verdict on the remote data (`engineAccepts = false` models a bad
signature, an unmet threshold, or a version rollback). -/
structure RemoteRepo where
  bundle : Bundle
  timestamp : TSBlob
  engineAccepts : Bool
deriving DecidableEq, Repr

/-- A constructed client: it serves targets from the bundle it holds. -/
structure Client where
  bundle : Bundle
deriving DecidableEq, Repr

/-- Observable effects of one client construction: how many network requests
were issued and how many entries were written to the cache directory. -/
structure Stats where
  fetches : Nat
  cacheWrites : Nat
deriving DecidableEq, Repr

/-- Number of entries in the cache directory (the test file's `dirLen`):
an absent bundle is an empty directory; a committed bundle occupies the four
role-metadata files plus one file per target. -/
def dirLen (dir : Option CachedBundle) : Nat :=
  match dir with
  | none => 0
  | some cb => 4 + cb.targets.length

/-- Modelled from the spec: the full update sequence of the Update
Orchestrator (`tuf.go`, absent from the sources).  Fetch the four role
metadata files and every target from the remote mirror and run them through
the external verification engine; if the engine rejects, fail with a
VerificationError (the previous bundle is not served); if it accepts, serve
the refreshed bundle and — only with persistence enabled — commit it to the
cache directory. -/
def refreshFromRemote (noCache : Bool) (dir : Option CachedBundle)
    (remote : RemoteRepo) :
    Except TufError (Client × Stats × Option CachedBundle) :=
  if remote.engineAccepts then
    .ok (⟨remote.bundle⟩,
      ⟨4 + remote.bundle.length,
        if noCache then 0 else 4 + remote.bundle.length⟩,
      if noCache then dir else some ⟨remote.bundle, remote.timestamp⟩)
  else
    .error .verificationError

/-- Modelled from the spec: `NewFromEnv` / client construction of the Update
Orchestrator (`tuf.go`, absent from the sources).  With persistence disabled
the store is a fresh in-process mapping, so no local bundle is visible and a
full bootstrap runs; with persistence enabled and no local bundle, bootstrap
runs; with a local bundle present, consult the expiration checker on the
cached timestamp blob: if fresh, serve entirely from the local bundle with
zero network requests and zero cache writes, otherwise run the full update. -/
def newFromEnv (checker : TSBlob → Bool) (noCache : Bool)
    (dir : Option CachedBundle) (remote : RemoteRepo) :
    Except TufError (Client × Stats × Option CachedBundle) :=
  match (if noCache then none else dir) with
  | some cb =>
      if checker cb.timestamp then
        refreshFromRemote noCache dir remote
      else
        .ok (⟨cb.targets⟩, ⟨0, 0⟩, dir)
  | none => refreshFromRemote noCache dir remote

/-- A construct/refresh/close cycle in no-persistence mode, iterated over a
sequence of (installed checker, remote state) pairs; a failed construction
leaves the directory as it was. -/
def runNoCacheCycles (steps : List ((TSBlob → Bool) × RemoteRepo))
    (dir : Option CachedBundle) : Option CachedBundle :=
  match steps with
  | [] => dir
  | (checker, remote) :: rest =>
      let dir' :=
        match newFromEnv checker true dir remote with
        | .ok (_, _, d) => d
        | .error _ => dir
      runNoCacheCycles rest dir'

/-- Repeated client construction in persistent mode against a fixed checker
and remote: returns the final cache directory together with the total number
of network fetches and of cache-entry writes over all `n` constructions (a
failed construction contributes nothing and leaves the directory alone). -/
def runCacheCycles (checker : TSBlob → Bool) (remote : RemoteRepo) :
    Nat → Option CachedBundle → Option CachedBundle × Nat × Nat
  | 0, dir => (dir, 0, 0)
  | n + 1, dir =>
      match newFromEnv checker false dir remote with
      | .ok (_, stats, d) =>
          let r := runCacheCycles checker remote n d
          (r.1, stats.fetches + r.2.1, stats.cacheWrites + r.2.2)
      | .error _ => runCacheCycles checker remote n dir

/-- The remote repository of `TestCustomRoot` as first committed: one target
`foo.txt` with content `"foo"`, timestamp version 1, accepted by the engine. -/
def remoteV1 : RemoteRepo :=
  ⟨[⟨"foo.txt", "foo", none⟩], .version 1, true⟩

/-- The remote repository of `TestCustomRoot` after `updateTufRepo`: target
`foo.txt` updated to content `"foo1"`, timestamp version 2, accepted. -/
def remoteV2 : RemoteRepo :=
  ⟨[⟨"foo.txt", "foo1", none⟩], .version 2, true⟩

end Cosign

namespace spiffe

/-- The constant `socketPath` from `pkg/providers/spiffe/spiffe.go`: the fixed path the
SPIFFE workload API socket is looked for at. -/
def socketPath : String := "/tmp/spire-agent/public/api.sock"

/-- The successful result of `os.Stat` (the provider discards it, so its
payload is irrelevant; we keep a size field for concreteness). -/
structure FileInfo where
  size : Nat
deriving DecidableEq, Repr

/-- The state of the filesystem as `os.Stat` exposes it: per path, either a
`FileInfo` or an error message. -/
structure FileSystem where
  stat : String → Except String FileInfo

/-- A `context.Context` value.  `Enabled` receives one and ignores it; the
payload only serves to let two distinct contexts exist. -/
structure Context where
  id : Nat
deriving DecidableEq, Repr

/-- The method `Enabled` from `pkg/providers/spiffe/spiffe.go`: stat the fixed socket
path, discard the file info, and report `err == nil`. -/
def Enabled (fs : FileSystem) (_ctx : Context) : Bool :=
  match fs.stat socketPath with
  | .ok _ => true
  | .error _ => false

/-- A filesystem on which every stat succeeds (the socket exists). -/
def statOkFS : FileSystem :=
  ⟨fun _ => .ok ⟨0⟩⟩

end spiffe

namespace Cosign

/-- Membership in `matchedTargets`: exactly the `{content, status}` images of
the bundle targets whose decoded custom metadata carries the requested usage. -/
theorem mem_matchedTargets (b : Bundle) (usage : UsageKind) (tf : TargetFile) :
    tf ∈ matchedTargets b usage ↔
      ∃ t ∈ b, ∃ cm, t.custom = some cm ∧ cm.Usage = usage ∧
        tf = ⟨t.content, cm.Status⟩ := by
  simp only [matchedTargets, List.mem_filterMap, Option.bind_eq_some]
  constructor
  · rintro ⟨t, ht, cm, hcm, hif⟩
    split at hif
    · cases hif
      exact ⟨t, ht, cm, hcm, by assumption, rfl⟩
    · cases hif
  · rintro ⟨t, ht, cm, hcm, hu, rfl⟩
    exact ⟨t, ht, cm, hcm, by simp [hu]⟩

/-- The lookup `getTarget` fails (with the NotFoundError carrying the name) exactly when
no target of the bundle bears the name. -/
theorem getTarget_error_iff (b : Bundle) (n : String) :
    getTarget b n = .error (.notFound n) ↔ ∀ t ∈ b, t.name ≠ n := by
  unfold getTarget
  split
  next t hf =>
    have h1 := List.find?_some hf
    have hmem := List.mem_of_find?_eq_some hf
    simp only [beq_iff_eq] at h1
    constructor
    · intro h
      cases h
    · intro h
      exact absurd h1 (h t hmem)
  next hf =>
    simp only [List.find?_eq_none, beq_iff_eq] at hf
    exact ⟨fun _ => hf, fun _ => rfl⟩

/-- The lookup `getTarget` either returns some content or the NotFoundError of the name. -/
theorem getTarget_ok_or_error (b : Bundle) (n : String) :
    (∃ c, getTarget b n = .ok c) ∨ getTarget b n = .error (.notFound n) := by
  unfold getTarget
  split
  next t _ => exact Or.inl ⟨t.content, rfl⟩
  next _ => exact Or.inr rfl

/-- If `getTarget` succeeds, some target of the bundle bears the name. -/
theorem getTarget_ok_mem (b : Bundle) (n : String) (c : Content)
    (h : getTarget b n = .ok c) : ∃ t ∈ b, t.name = n := by
  unfold getTarget at h
  split at h
  next t hf =>
    have h1 := List.find?_some hf
    simp only [beq_iff_eq] at h1
    exact ⟨t, List.mem_of_find?_eq_some hf, h1⟩
  next _ => cases h

/-- The not-found message is `"file not found: "` followed by the missing
name, so it contains the missing name as a substring. -/
theorem strContains_message (n : String) :
    strContains (TufError.message (.notFound n)) n := by
  refine ⟨"file not found: ".data, [], ?_⟩
  simp [TufError.message, String.data_append]

/-- Resolving fallback names that are all present in the bundle yields one
Active entry per name, in order, with the looked-up contents. -/
theorem resolveFallbacks_ok (b : Bundle) (fb : List String) (cs : List Content)
    (hall : List.Forall₂ (fun n c => getTarget b n = .ok c) fb cs) :
    resolveFallbacks b fb = .ok (cs.map (fun c => ⟨c, .Active⟩)) := by
  induction hall with
  | nil => rfl
  | cons h htl ih =>
      simp only [resolveFallbacks, h, ih, Except.map, List.map_cons]

/-- Resolving fallback names over a bundle that lacks one of them fails with
the NotFoundError of the first absent name. -/
theorem resolveFallbacks_error (b : Bundle) (fb : List String)
    (hmiss : ∃ n ∈ fb, ∀ t ∈ b, t.name ≠ n) :
    ∃ n, n ∈ fb ∧ (∀ t ∈ b, t.name ≠ n) ∧
      resolveFallbacks b fb = .error (.notFound n) := by
  induction fb with
  | nil =>
      rcases hmiss with ⟨n, hn, _⟩
      cases hn
  | cons a fb ih =>
      rcases getTarget_ok_or_error b a with ⟨c, hc⟩ | herr
      · have hmiss' : ∃ n ∈ fb, ∀ t ∈ b, t.name ≠ n := by
          rcases hmiss with ⟨n, hn, habs⟩
          rcases List.mem_cons.1 hn with rfl | hn'
          · rcases getTarget_ok_mem b n c hc with ⟨t, ht, hname⟩
            exact absurd hname (habs t ht)
          · exact ⟨n, hn', habs⟩
        rcases ih hmiss' with ⟨n, hn, habs, heq⟩
        refine ⟨n, List.mem_cons_of_mem a hn, habs, ?_⟩
        simp [resolveFallbacks, hc, heq, Except.map]
      · refine ⟨a, List.mem_cons_self a fb, (getTarget_error_iff b a).1 herr, ?_⟩
        simp [resolveFallbacks, herr]

/-- C1: if at least one target of the bundle carries decoded custom metadata
with the requested usage, `GetTargetsByMeta` returns exactly the
`{content, status}` entries of all such targets, regardless of status, and
ignores `fallbackNames`; in particular, against the test bundle (two targets
tagged usage Fulcio, one Active and one Expired, plus an untagged target),
`GetTargetsByMeta Fulcio ["fooNoCustom.txt"]` returns exactly the two tagged
targets with both statuses represented. -/
theorem getTargetsByMeta_role_match :
    (∀ (b : Bundle) (usage : UsageKind) (fb : List String),
        (∃ t ∈ b, ∃ cm, t.custom = some cm ∧ cm.Usage = usage) →
        GetTargetsByMeta b usage fb = .ok (matchedTargets b usage) ∧
        (∀ tf, tf ∈ matchedTargets b usage ↔
            ∃ t ∈ b, ∃ cm, t.custom = some cm ∧ cm.Usage = usage ∧
              tf = ⟨t.content, cm.Status⟩) ∧
        (∀ fb', GetTargetsByMeta b usage fb' = GetTargetsByMeta b usage fb)) ∧
    GetTargetsByMeta customRepoBundle .Fulcio ["fooNoCustom.txt"] =
      .ok [⟨"foo", .Active⟩, ⟨"foo", .Expired⟩] := by
  constructor
  · rintro b usage fb ⟨t, ht, cm, hcm, hu⟩
    have hmem : (⟨t.content, cm.Status⟩ : TargetFile) ∈ matchedTargets b usage :=
      (mem_matchedTargets b usage _).2 ⟨t, ht, cm, hcm, hu, rfl⟩
    have hne : (matchedTargets b usage).isEmpty = false := by
      cases hm : matchedTargets b usage with
      | nil => rw [hm] at hmem; cases hmem
      | cons x xs => rfl
    refine ⟨?_, mem_matchedTargets b usage, ?_⟩
    · simp [GetTargetsByMeta, hne]
    · intro fb'
      simp [GetTargetsByMeta, hne]
  · rfl

/-- A closed instance of `getTargetsByMeta_role_match` at the test bundle:
the premise (a Fulcio-tagged target exists) is discharged concretely. -/
theorem getTargetsByMeta_role_match_witness :
    GetTargetsByMeta customRepoBundle .Fulcio ["x"] =
      .ok (matchedTargets customRepoBundle .Fulcio) :=
  (getTargetsByMeta_role_match.1 customRepoBundle .Fulcio ["x"]
    ⟨⟨"fooActive.txt", "foo", some ⟨.Fulcio, .Active⟩⟩, by decide,
      ⟨.Fulcio, .Active⟩, rfl, rfl⟩).1

/-- C2: if no target of the bundle carries custom metadata matching the
requested usage, `GetTargetsByMeta` resolves each fallback name by direct
`getTarget` lookup and returns one `{content, status = Active}` entry per
name found; in particular, against the test bundle (no target tagged
usage Unknown), `GetTargetsByMeta Unknown ["fooNoCustom.txt"]` returns
exactly the one entry for `fooNoCustom.txt` with status Active. -/
theorem getTargetsByMeta_fallback :
    (∀ (b : Bundle) (usage : UsageKind) (fb : List String) (cs : List Content),
        matchedTargets b usage = [] →
        List.Forall₂ (fun n c => getTarget b n = .ok c) fb cs →
        GetTargetsByMeta b usage fb =
          .ok (cs.map (fun c => ⟨c, .Active⟩))) ∧
    GetTargetsByMeta customRepoBundle .Unknown ["fooNoCustom.txt"] =
      .ok [⟨"foo", .Active⟩] := by
  constructor
  · intro b usage fb cs hm hall
    have hmb : GetTargetsByMeta b usage fb = resolveFallbacks b fb := by
      simp [GetTargetsByMeta, hm]
    rw [hmb]
    exact resolveFallbacks_ok b fb cs hall
  · rfl

/-- A closed instance of `getTargetsByMeta_fallback` at the test bundle:
no target matches usage Unknown and the fallback name resolves to `"foo"`. -/
theorem getTargetsByMeta_fallback_witness :
    GetTargetsByMeta customRepoBundle .Unknown ["fooNoCustom.txt"] =
      .ok (["foo"].map (fun c => ⟨c, .Active⟩)) :=
  getTargetsByMeta_fallback.1 customRepoBundle .Unknown ["fooNoCustom.txt"]
    ["foo"] rfl (List.Forall₂.cons rfl List.Forall₂.nil)

/-- C3: if no target matches the requested usage and some fallback name is
absent from the bundle, `GetTargetsByMeta` fails the whole call with the
NotFoundError of a missing name, whose message contains that name (no
partial result, no silent skip); in particular
`GetTargetsByMeta Unknown ["unknown.txt"]` against the test bundle fails
with a message containing `unknown.txt`. -/
theorem getTargetsByMeta_missing_name :
    (∀ (b : Bundle) (usage : UsageKind) (fb : List String),
        matchedTargets b usage = [] →
        (∃ n ∈ fb, ∀ t ∈ b, t.name ≠ n) →
        ∃ n, n ∈ fb ∧ (∀ t ∈ b, t.name ≠ n) ∧
          GetTargetsByMeta b usage fb = .error (.notFound n) ∧
          strContains (TufError.message (.notFound n)) n) ∧
    (GetTargetsByMeta customRepoBundle .Unknown ["unknown.txt"] =
        .error (.notFound "unknown.txt") ∧
      strContains (TufError.message (.notFound "unknown.txt")) "unknown.txt") := by
  constructor
  · intro b usage fb hm hmiss
    rcases resolveFallbacks_error b fb hmiss with ⟨n, hn, habs, heq⟩
    refine ⟨n, hn, habs, ?_, strContains_message n⟩
    simp [GetTargetsByMeta, hm, heq]
  · exact ⟨rfl, strContains_message "unknown.txt"⟩

/-- A closed instance of `getTargetsByMeta_missing_name`: against the test
bundle, the call with the absent fallback name `unknown.txt` fails with the
NotFoundError carrying that very name. -/
theorem getTargetsByMeta_missing_name_witness :
    GetTargetsByMeta customRepoBundle .Unknown ["unknown.txt"] =
      .error (.notFound "unknown.txt") := by
  rcases getTargetsByMeta_missing_name.1 customRepoBundle .Unknown
      ["unknown.txt"] rfl ⟨"unknown.txt", by decide, by decide⟩
    with ⟨n, hn, _, heq, _⟩
  rw [List.mem_singleton] at hn
  rw [hn] at heq
  exact heq

/-- C4 (counterexample): the claim that the expiration checker is supplied
per client instance and "is never process-global mutable state" fails on the
code: `forceExpiration` swaps the package-level variable
`isExpiredTimestamp`, so installing a second policy (always fresh)
overwrites the first (always expired) — the single process-wide checker
flips its answer on the very same blob, interference the claim rules out. -/
theorem forceExpiration_global_counterexample :
    (forceExpiration pkgInit true).isExpiredTimestamp (.version 1) = true ∧
    (forceExpiration (forceExpiration pkgInit true) false).isExpiredTimestamp
        (.version 1) = false :=
  ⟨rfl, rfl⟩

/-- C4 (amended): the expiration checker is the package-level mutable
variable `isExpiredTimestamp`, shared by every client in the process; an
installation via `forceExpiration` replaces the process-wide predicate, so
after two installations every check — and every client construction — is
governed by the most recent policy, regardless of which client the earlier
installation was intended for. -/
theorem forceExpiration_global :
    (∀ (s : PkgState) (e1 e2 : Bool) (blob : TSBlob),
        (forceExpiration (forceExpiration s e1) e2).isExpiredTimestamp blob = e2) ∧
    (∀ (s : PkgState) (cb : CachedBundle) (remote : RemoteRepo),
        newFromEnv
            ((forceExpiration (forceExpiration s true) false).isExpiredTimestamp)
            false (some cb) remote =
          .ok (⟨cb.targets⟩, ⟨0, 0⟩, some cb)) :=
  ⟨fun _ _ _ _ => rfl, fun _ _ _ => rfl⟩

/-- C5: whenever a refresh attempt runs (bootstrap with no usable local
bundle, or a cached bundle the installed checker reports expired) and the
external verification engine rejects the remote data, the refresh yields a
VerificationError and client construction fails; the previously cached
bundle is never served as a silent fallback. -/
theorem refresh_rejected_fails :
    ∀ (checker : TSBlob → Bool) (noCache : Bool) (dir : Option CachedBundle)
      (remote : RemoteRepo),
      remote.engineAccepts = false →
      (∀ cb, (if noCache then none else dir) = some cb →
        checker cb.timestamp = true) →
      refreshFromRemote noCache dir remote = .error .verificationError ∧
      newFromEnv checker noCache dir remote = .error .verificationError := by
  intro checker noCache dir remote hrej hexp
  have hr : refreshFromRemote noCache dir remote = .error .verificationError := by
    simp [refreshFromRemote, hrej]
  refine ⟨hr, ?_⟩
  unfold newFromEnv
  split
  next cb hcb => simp [hexp cb hcb, hr]
  next => exact hr

/-- A closed instance of `refresh_rejected_fails`: a bootstrap (no local
bundle) against a remote the engine rejects fails with a VerificationError. -/
theorem refresh_rejected_fails_witness :
    refreshFromRemote false none ⟨[], .garbage, false⟩ =
      .error .verificationError ∧
    newFromEnv (fun _ => true) false none ⟨[], .garbage, false⟩ =
      .error .verificationError :=
  refresh_rejected_fails (fun _ => true) false none ⟨[], .garbage, false⟩ rfl
    (fun cb h => by simp at h)

/-- C6: in no-persistence mode the ephemeral store performs no durable
filesystem mutation: any sequence of construct/refresh/close cycles —
including cycles whose installed checker forces a refresh that downloads
content — leaves the cache directory exactly as it was, and a directory that
starts empty ends with zero entries. -/
theorem noCache_zero_entries :
    (∀ (steps : List ((TSBlob → Bool) × RemoteRepo)) (dir : Option CachedBundle),
        runNoCacheCycles steps dir = dir) ∧
    (∀ steps, dirLen (runNoCacheCycles steps none) = 0) := by
  have hstep : ∀ (checker : TSBlob → Bool) (remote : RemoteRepo)
      (dir : Option CachedBundle),
      (match newFromEnv checker true dir remote with
        | .ok (_, _, d) => d
        | .error _ => dir) = dir := by
    intro checker remote dir
    by_cases h : remote.engineAccepts <;>
      simp [newFromEnv, refreshFromRemote, h]
  have hall : ∀ (steps : List ((TSBlob → Bool) × RemoteRepo))
      (dir : Option CachedBundle), runNoCacheCycles steps dir = dir := by
    intro steps
    induction steps with
    | nil => intro dir; rfl
    | cons p rest ih =>
        intro dir
        obtain ⟨checker, remote⟩ := p
        have hd : runNoCacheCycles ((checker, remote) :: rest) dir =
            runNoCacheCycles rest
              (match newFromEnv checker true dir remote with
                | .ok (_, _, d) => d
                | .error _ => dir) := rfl
        rw [hd, hstep, ih]
  exact ⟨hall, fun steps => by rw [hall steps none]; rfl⟩

/-- C7: with persistence enabled and a cached bundle the installed checker
classifies as fresh, construction serves entirely from the local bundle —
zero network requests, zero cache writes, directory unchanged — and
repeating construction any number of times still issues zero fetches and
zero writes in total. -/
theorem cache_fresh_no_refetch :
    ∀ (checker : TSBlob → Bool) (cb : CachedBundle) (remote : RemoteRepo)
      (n : Nat),
      checker cb.timestamp = false →
      newFromEnv checker false (some cb) remote =
        .ok (⟨cb.targets⟩, ⟨0, 0⟩, some cb) ∧
      runCacheCycles checker remote n (some cb) = (some cb, 0, 0) := by
  intro checker cb remote n h
  have h1 : newFromEnv checker false (some cb) remote =
      .ok (⟨cb.targets⟩, ⟨0, 0⟩, some cb) := by
    simp [newFromEnv, h]
  refine ⟨h1, ?_⟩
  induction n with
  | zero => rfl
  | succ n ih => simp [runCacheCycles, h1, ih]

/-- A closed instance of `cache_fresh_no_refetch`: with an always-fresh
checker, one construction and three repeated constructions serve from the
cache with zero fetches and zero writes. -/
theorem cache_fresh_no_refetch_witness :
    newFromEnv (fun _ => false) false (some ⟨[], .garbage⟩)
        ⟨[], .garbage, true⟩ =
      .ok (⟨[]⟩, ⟨0, 0⟩, some ⟨[], .garbage⟩) ∧
    runCacheCycles (fun _ => false) ⟨[], .garbage, true⟩ 3
        (some ⟨[], .garbage⟩) =
      (some ⟨[], .garbage⟩, 0, 0) :=
  cache_fresh_no_refetch (fun _ => false) ⟨[], .garbage⟩ ⟨[], .garbage, true⟩
    3 rfl

/-- C8: whenever the installed checker reports the cached timestamp expired,
a construction that succeeds (so that targets can be returned) has issued at
least one network fetch and — persistence being enabled — committed at least
one new entry, namely the freshly verified remote bundle, to the cache
directory. -/
theorem expired_forces_fetch :
    ∀ (checker : TSBlob → Bool) (cb : CachedBundle) (remote : RemoteRepo)
      (c : Client) (stats : Stats) (d : Option CachedBundle),
      checker cb.timestamp = true →
      newFromEnv checker false (some cb) remote = .ok (c, stats, d) →
      1 ≤ stats.fetches ∧ 1 ≤ stats.cacheWrites ∧
        d = some ⟨remote.bundle, remote.timestamp⟩ := by
  intro checker cb remote c stats d hexp hok
  by_cases h : remote.engineAccepts
  · have hcomp : newFromEnv checker false (some cb) remote =
        .ok (⟨remote.bundle⟩,
          ⟨4 + remote.bundle.length, 4 + remote.bundle.length⟩,
          some ⟨remote.bundle, remote.timestamp⟩) := by
      simp [newFromEnv, refreshFromRemote, hexp, h]
    rw [hcomp] at hok
    simp only [Except.ok.injEq, Prod.mk.injEq] at hok
    obtain ⟨hc, hs, hd⟩ := hok
    subst hs
    subst hd
    refine ⟨?_, ?_, rfl⟩ <;>
      exact Nat.le_trans (by decide) (Nat.le_add_right 4 _)
  · have hcomp : newFromEnv checker false (some cb) remote =
        .error .verificationError := by
      simp [newFromEnv, refreshFromRemote, hexp, h]
    rw [hcomp] at hok
    simp at hok

/-- A closed instance of `expired_forces_fetch`: an always-expired checker
over an empty cached bundle forces a refresh with four fetches and four
cache writes. -/
theorem expired_forces_fetch_witness :
    1 ≤ (Stats.mk 4 4).fetches ∧ 1 ≤ (Stats.mk 4 4).cacheWrites ∧
      (some (CachedBundle.mk [] .garbage) : Option CachedBundle) =
        some ⟨([] : Bundle), TSBlob.garbage⟩ :=
  expired_forces_fetch (fun _ => true) ⟨[], .garbage⟩ ⟨[], .garbage, true⟩
    ⟨[]⟩ ⟨4, 4⟩ (some ⟨[], .garbage⟩) rfl rfl

/-- C9: a successful bootstrap hands the caller a client holding exactly the
remote bundle, so `getTarget` on it returns content byte-identical to what
was committed; and with a cached bundle of declared version `v` and the
checker installed by `forceExpirationVersion v` (any version `≤ v` is
expired), construction refreshes from the updated remote and the client
holds the new bundle — stale cached content is not reused. -/
theorem getTarget_reflects_remote :
    (∀ (checker : TSBlob → Bool) (noCache : Bool) (remote : RemoteRepo),
        remote.engineAccepts = true →
        newFromEnv checker noCache none remote =
          .ok (⟨remote.bundle⟩,
            ⟨4 + remote.bundle.length,
              if noCache then 0 else 4 + remote.bundle.length⟩,
            if noCache then none
              else some ⟨remote.bundle, remote.timestamp⟩)) ∧
    (∀ (s : PkgState) (v : Int) (cb : CachedBundle) (remote : RemoteRepo),
        cb.timestamp = .version v →
        remote.engineAccepts = true →
        newFromEnv ((forceExpirationVersion s v).isExpiredTimestamp) false
            (some cb) remote =
          .ok (⟨remote.bundle⟩,
            ⟨4 + remote.bundle.length, 4 + remote.bundle.length⟩,
            some ⟨remote.bundle, remote.timestamp⟩)) ∧
    (∀ (b : Bundle) (name : String) (content : Content),
        getTarget b name = .ok content →
        getTarget (Client.mk b).bundle name = .ok content) := by
  refine ⟨?_, ?_, fun _ _ _ h => h⟩
  · intro checker noCache remote h
    cases noCache <;> simp [newFromEnv, refreshFromRemote, h]
  · intro s v cb remote hts hacc
    have hchk : (forceExpirationVersion s v).isExpiredTimestamp cb.timestamp
        = true := by
      rw [hts]
      simp [forceExpirationVersion]
    simp [newFromEnv, hchk, refreshFromRemote, hacc]

/-- A closed instance of `getTarget_reflects_remote`, mirroring
`TestCustomRoot`: bootstrap from the version-1 remote serves `foo.txt` as
`"foo"`; with the cached version-1 bundle and the checker installed by
`forceExpirationVersion 1`, construction refreshes from the version-2 remote
and serves the updated content `"foo1"`. -/
theorem getTarget_reflects_remote_witness :
    newFromEnv (fun _ => true) false none remoteV1 =
      .ok (⟨remoteV1.bundle⟩, ⟨5, 5⟩, some ⟨remoteV1.bundle, .version 1⟩) ∧
    newFromEnv ((forceExpirationVersion pkgInit 1).isExpiredTimestamp) false
        (some ⟨remoteV1.bundle, .version 1⟩) remoteV2 =
      .ok (⟨remoteV2.bundle⟩, ⟨5, 5⟩, some ⟨remoteV2.bundle, .version 2⟩) ∧
    getTarget (Client.mk remoteV2.bundle).bundle "foo.txt" = .ok "foo1" :=
  ⟨getTarget_reflects_remote.1 (fun _ => true) false remoteV1 rfl,
    getTarget_reflects_remote.2.1 pkgInit 1 ⟨remoteV1.bundle, .version 1⟩
      remoteV2 rfl rfl,
    getTarget_reflects_remote.2.2 remoteV2.bundle "foo.txt" "foo1" rfl⟩

end Cosign

namespace spiffe

/-- C10: `Enabled` of the SPIFFE identity provider returns `true` exactly
when the fixed workload-API socket path can be stat'd without error; the
context argument has no influence, and nothing of the filesystem beyond the
stat result at `socketPath` does either (and `Enabled`, returning a plain
boolean, never fails). -/
theorem Enabled_stat_only :
    ∀ (fs fs' : FileSystem) (ctx ctx' : Context),
      (Enabled fs ctx = true ↔ ∃ info, fs.stat socketPath = .ok info) ∧
      (fs.stat socketPath = fs'.stat socketPath →
        Enabled fs ctx = Enabled fs' ctx') := by
  intro fs fs' ctx ctx'
  constructor
  · unfold Enabled
    split
    next info h => simp [h]
    next e h => simp [h]
  · intro h
    unfold Enabled
    rw [h]

/-- A closed instance of `Enabled_stat_only`: on a filesystem where the stat
succeeds, two different contexts give the same (true) answer. -/
theorem Enabled_stat_only_witness :
    Enabled statOkFS ⟨0⟩ = Enabled statOkFS ⟨1⟩ :=
  (Enabled_stat_only statOkFS statOkFS ⟨0⟩ ⟨1⟩).2 rfl

end spiffe
